import Mathlib

/-!
# Dashboard (static/js/dashboard.js): a shallow embedding

The browser dashboard is modelled by explicit state passing.  The global
variables of the script and the parts of the page it touches are fields of
`State`; every function of the script becomes a function on that state.

* JavaScript objects used as string-keyed dictionaries (`countryCoords`,
  `countryAliases`, `markersByCountry`) are association lists of their own
  properties (`Table`).  They are plain objects, so the operator `in` and a
  property read also see the members of `Object.prototype`
  (`objectPrototypeNames`): such a member is a function or an object, hence
  truthy and not iterable.
* JavaScript truthiness is made explicit: `undefined`/`null` is `none`, the
  empty string and the number `0` are falsy.
* A `TypeError` thrown inside `loadActiveCountries` ends the function; the
  result records whether the function ran to its end (`Outcome`).
* Map overlays are objects with an identity; the identity is a number drawn
  from the counter `State.nextId` when the overlay is constructed.
* A `select` element is its list of option values and the value it shows;
  assigning `select.value` selects the first option with that value and
  leaves the element showing the empty string when there is none.
* An `async` function is split at its `await fetch(..)`: the part before the
  request, and the part that resumes on the response.
-/

namespace Dashboard

/-! ## Data model -/

/-- Own properties of a JavaScript object used as a dictionary, in insertion order. -/
abbrev Table (α : Type) := List (String × α)

/-- Own-property read of `t[k]`: `none` when `t` has no own property `k`. -/
def Table.get {α : Type} (t : Table α) (k : String) : Option α :=
  List.lookup k t

/-- The object `t` has an own property `k`. -/
def Table.has {α : Type} (t : Table α) (k : String) : Bool :=
  (t.get k).isSome

/-- Property write `t[k] = v`: overwrite in place, or add a new last property. -/
def Table.set {α : Type} (t : Table α) (k : String) (v : α) : Table α :=
  if t.has k then t.map (fun p => if p.1 == k then (k, v) else p) else t ++ [(k, v)]

/-- The values of the object, `Object.values(t)`. -/
def Table.values {α : Type} (t : Table α) : List α :=
  t.map Prod.snd

/-- The keys of the object, `Object.keys(t)`. -/
def Table.keys {α : Type} (t : Table α) : List String :=
  t.map Prod.fst

/-- The names of the members of `Object.prototype`, which every plain object
inherits. -/
def objectPrototypeNames : List String :=
  ["constructor", "hasOwnProperty", "isPrototypeOf", "propertyIsEnumerable",
   "toLocaleString", "toString", "valueOf", "__proto__", "__defineGetter__",
   "__defineSetter__", "__lookupGetter__", "__lookupSetter__"]

/-- The name `k` is inherited by every plain object. -/
def inheritedName (k : String) : Bool :=
  decide (k ∈ objectPrototypeNames)

/-- The test `k in t` on a plain object: an own or an inherited property. -/
def Table.hasIn {α : Type} (t : Table α) (k : String) : Bool :=
  t.has k || inheritedName k

/-- The read `t[k]` on a plain object is truthy, for a table whose own values
are all truthy (coordinate pairs, overlay objects): an own property, or an
inherited member. -/
def Table.truthyAt {α : Type} (t : Table α) (k : String) : Bool :=
  (t.get k).isSome || inheritedName k

/-- Truthiness of a string-or-undefined value: a present, non-empty string. -/
def truthyStr : Option String → Option String
  | some s => if s = "" then none else some s
  | none => none

/-- An entry `[lat, lon]` of the coordinate table. -/
structure LatLon where
  lat : ℚ
  lon : ℚ
  deriving DecidableEq

/-- One element of `apiData.countries`. -/
structure ActiveCountry where
  country : String
  events_count : Int
  deriving DecidableEq

/-- Body of the `/api/countries/active` response; an absent list is `none`. -/
structure ApiData where
  countries : Option (List ActiveCountry)
  ignored_countries : Option (List String)

/-- An HTTP response: `failure` when `resp.ok` is false, else the parsed JSON body. -/
inductive Response (α : Type) where
  | failure (status : Nat)
  | success (body : α)

/-- The object returned by `markerStyle`. -/
structure Style where
  radius : ℚ
  color : String
  fillColor : String
  fillOpacity : ℚ
  weight : Nat
  deriving DecidableEq

/-- The two circles drawn for one country. -/
inductive LayerKind where
  | hitTarget
  | visible
  deriving DecidableEq

/-- A circle overlay built by `L.circleMarker`.  `key` is the country key the
circle belongs to: the key its click handler opens the side panel with (hit
target), or the key it is registered and labelled with (visible circle). -/
structure Layer where
  id : Nat
  kind : LayerKind
  key : String
  pos : LatLon
  radius : ℚ
  color : String
  fillColor : String
  fillOpacity : ℚ
  weight : Nat
  popup : Option (String × Int)
  deriving DecidableEq

/-- The element `#dashboard-alert`. -/
structure Alert where
  textContent : String
  display : String
  deriving DecidableEq

/-- A `select` element: the values of its options in document order, and the
value it shows (`select.value`), the empty string when no option is selected. -/
structure Select where
  options : List String
  value : String
  deriving DecidableEq

/-- The assignment `select.value = v`: the first option with value `v` becomes
the selected one; with no such option none is selected. -/
def Select.setValue (select : Select) (v : String) : Select :=
  if v ∈ select.options then { select with value := v } else { select with value := "" }

/-- The user picks the option `v` of the element. -/
def Select.pick (select : Select) (v : String) : Select :=
  { select with value := v }

/-- A message of a zone, as received. -/
structure Message where
  title : Option String
  translated_text : Option String
  preview : Option String
  source : String
  orientation : Option String
  url : Option String
  telegram_message_id : Nat
  event_timestamp : Option String
  created_at : Option String

/-- A zone, as received. -/
structure Zone where
  region : Option String
  location : Option String
  messages_count : Nat
  messages : List Message

/-- Body of an events response; an absent zone list or date is `none`. -/
structure EventsData where
  zones : Option (List Zone)
  date : Option String := none

/-- The `li.event` built for one message. -/
structure EventItem where
  zoneIdx : Nat
  msgIdx : Nat
  title : String
  fullText : String
  source : String
  orientation : String
  postLink : Option (String × Nat)
  timeOf : Option String

/-- The collapsible `section.zone-block` built for one zone. -/
structure ZoneBlock where
  idx : Nat
  header : String
  count : Nat
  items : List EventItem

/-- Content of the element `#events`: plain text, or the zone sections. -/
inductive EventsContent where
  | text (t : String)
  | sections (blocks : List ZoneBlock)

/-- The globals of the script and the page elements it reads and writes, on a
page that has both `select` elements. -/
structure State where
  timelineDates : List String
  currentGlobalDate : Option String
  currentPanelDate : Option String
  currentCountry : Option String
  markersByCountry : Table Layer
  /-- Circle overlays added to the map and not yet removed. -/
  mapLayers : List Layer
  /-- Identity given to the next overlay object constructed. -/
  nextId : Nat
  /-- The element `#timeline-global`. -/
  selectGlobal : Select
  /-- The element `#timeline-panel`. -/
  selectPanel : Select
  /-- The element `#dashboard-alert`, `none` when the page has none. -/
  alert : Option Alert
  events : EventsContent
  /-- Indices of the zone headers given a click listener, in call order. -/
  zoneListeners : List Nat
  /-- URLs passed to `fetch`, in call order. -/
  fetched : List String

/-- How a call ended: it ran to its end, or a `TypeError` ended it; either way
with the state reached. -/
inductive Outcome where
  | done (s : State)
  | threw (s : State)

/-- The state a call ended in. -/
def Outcome.state : Outcome → State
  | Outcome.done s => s
  | Outcome.threw s => s

/-- The call ran to its end. -/
def Outcome.isDone : Outcome → Bool
  | Outcome.done _ => true
  | Outcome.threw _ => false

/-! ## Marker style -/

/-- `markerStyle(count)`; `IS_MOBILE` is the media-query constant of the script. -/
def markerStyle (IS_MOBILE : Bool) (count : Int) : Style :=
  let n : Int := max 1 (if count = 0 then 1 else count)
  let minRadius : ℚ := if IS_MOBILE then 8 else 4
  let maxRadius : ℚ := if IS_MOBILE then 13 else 7
  let maxCount : ℚ := 30
  let ratio : ℚ := min ((n : ℚ) / maxCount) 1
  let radius : ℚ := minRadius + (maxRadius - minRadius) * ratio
  let color : String :=
    if n < 5 then "#22c55e" else if n < 15 then "#eab308" else "#f97316"
  { radius := radius
    color := color
    fillColor := color
    fillOpacity := 0.85
    weight := if IS_MOBILE then 2 else 1 }

/-- The configured maximum radius (`maxRadius` in `markerStyle`). -/
def maxRadius (IS_MOBILE : Bool) : ℚ := if IS_MOBILE then 13 else 7

/-! ## Marker reconciliation -/

/-- `map.removeLayer(m)`: the overlay with the identity of `m` leaves the map. -/
def removeLayer (layers : List Layer) (m : Layer) : List Layer :=
  layers.filter (fun l => l.id != m.id)

/-- `clearMarkers()`. -/
def clearMarkers (s : State) : State :=
  { s with
    mapLayers := s.markersByCountry.values.foldl removeLayer s.mapLayers
    markersByCountry := [] }

/-- Lines 188-197 of the callback: the value of `key` after the lookup, `none`
when the name is pushed to `missing`.  In the alias branch the name is not a
member of `Object.prototype` (it would be `in countryCoords`), so
`countryAliases[normName]` is an own property or `undefined`. -/
def resolveKey (countryCoords : Table LatLon) (countryAliases : Table String)
    (normName : String) : Option String :=
  if countryCoords.hasIn normName then some normName
  else
    match truthyStr (countryAliases.get normName) with
    | some a => if countryCoords.truthyAt a then some a else none
    | none => none

/-- The transparent hit target `interactiveCircle` of the callback, with
`clickableRadius = style.radius * 2.5`. -/
def interactiveCircle (id : Nat) (key : String) (latlon : LatLon) (style : Style) : Layer :=
  { id := id
    kind := LayerKind.hitTarget
    key := key
    pos := latlon
    radius := style.radius * 2.5
    color := "transparent"
    fillColor := "transparent"
    fillOpacity := 0
    weight := 0
    popup := none }

/-- The visible circle `marker` of the callback; the popup is bound on pointer
devices only. -/
def visibleMarker (IS_MOBILE : Bool) (id : Nat) (key : String) (latlon : LatLon)
    (style : Style) (count : Int) : Layer :=
  { id := id
    kind := LayerKind.visible
    key := key
    pos := latlon
    radius := style.radius
    color := style.color
    fillColor := style.fillColor
    fillOpacity := style.fillOpacity
    weight := style.weight
    popup := if IS_MOBILE then none else some (key, count) }

/-- The callback of `countries.forEach` in `loadActiveCountries`, on the pair of
the state and the local array `missing`.  The result is `error` with the state
reached when the destructuring of line 199 throws: `countryCoords[key]` is then
an inherited member, which is not iterable. -/
def addCountry (IS_MOBILE : Bool) (countryCoords : Table LatLon)
    (countryAliases : Table String) (p : State × List String) (c : ActiveCountry) :
    Except State (State × List String) :=
  let normName := c.country
  let count := c.events_count
  match resolveKey countryCoords countryAliases normName with
  | none => Except.ok (p.1, p.2 ++ [normName])
  | some key =>
    match countryCoords.get key with
    | none => Except.error p.1
    | some latlon =>
      if p.1.markersByCountry.truthyAt key then Except.ok p
      else
        let style := markerStyle IS_MOBILE count
        let hit := interactiveCircle p.1.nextId key latlon style
        let marker := visibleMarker IS_MOBILE (p.1.nextId + 1) key latlon style count
        Except.ok
          ({ p.1 with
              nextId := p.1.nextId + 2
              mapLayers := p.1.mapLayers ++ [hit, marker]
              markersByCountry := p.1.markersByCountry.set key marker }, p.2)

/-- The loop `countries.forEach(callback)`: a throwing callback ends it. -/
def forEachCountry (IS_MOBILE : Bool) (countryCoords : Table LatLon)
    (countryAliases : Table String) :
    List ActiveCountry → State × List String → Except State (State × List String)
  | [], p => Except.ok p
  | c :: cs, p =>
    match addCountry IS_MOBILE countryCoords countryAliases p c with
    | Except.ok q => forEachCountry IS_MOBILE countryCoords countryAliases cs q
    | Except.error s => Except.error s

/-- Lines 246-261: the banner update, on an existing alert element. -/
def updateAlert (missing ignored : List String) (alert : Alert) : Alert :=
  let alertMsg0 : String := ""
  let alertMsg1 : String :=
    if missing.length > 0 then
      alertMsg0 ++ ("⚠️ Pays non géolocalisés : " ++ ", ".intercalate missing)
    else alertMsg0
  let alertMsg2 : String :=
    if ignored.length > 0 then
      (if alertMsg1 ≠ "" then alertMsg1 ++ " | " else alertMsg1)
        ++ ("⚠️ Pays non reconnus côté backend : " ++ ", ".intercalate ignored)
    else alertMsg1
  if alertMsg2 ≠ "" then { textContent := alertMsg2, display := "block" }
  else { alert with display := "none" }

/-- The request URL built by `loadActiveCountries`. -/
def activeCountriesUrl (encodeURIComponent : String → String) (s : State) : String :=
  match truthyStr s.currentGlobalDate with
  | some d =>
    if d ≠ "ALL" then "/api/countries/active" ++ ("?date=" ++ encodeURIComponent d)
    else "/api/countries/active"
  | none => "/api/countries/active"

/-- `loadActiveCountries()` up to its `await fetch(url)`. -/
def loadActiveCountriesBegin (encodeURIComponent : String → String) (s : State) : State :=
  { s with fetched := s.fetched ++ [activeCountriesUrl encodeURIComponent s] }

/-- `loadActiveCountries()` from the response on. -/
def loadActiveCountriesResume (IS_MOBILE : Bool) (countryCoords : Table LatLon)
    (countryAliases : Table String) (resp : Response ApiData) (s : State) : Outcome :=
  match resp with
  | Response.failure _ => Outcome.done s
  | Response.success apiData =>
    let countries := apiData.countries.getD []
    let ignored := apiData.ignored_countries.getD []
    let s1 := clearMarkers s
    match forEachCountry IS_MOBILE countryCoords countryAliases countries (s1, []) with
    | Except.error s2 => Outcome.threw s2
    | Except.ok p =>
      match p.1.alert with
      | some alert => Outcome.done { p.1 with alert := some (updateAlert p.2 ignored alert) }
      | none => Outcome.done p.1

/-- `loadActiveCountries()`, the server being the function `fetch`. -/
def loadActiveCountries (IS_MOBILE : Bool) (encodeURIComponent : String → String)
    (countryCoords : Table LatLon) (countryAliases : Table String)
    (fetch : String → Response ApiData) (s : State) : Outcome :=
  loadActiveCountriesResume IS_MOBILE countryCoords countryAliases
    (fetch (activeCountriesUrl encodeURIComponent s))
    (loadActiveCountriesBegin encodeURIComponent s)

/-! ## Event panel -/

/-- The JavaScript `a || b` on a string-or-undefined `a`. -/
def orElseStr (a : Option String) (b : String) : String :=
  (truthyStr a).getD b

/-- The `li.event` of message `m`, number `mIdx` of zone `idx`. -/
def renderMessage (idx mIdx : Nat) (m : Message) : EventItem :=
  { zoneIdx := idx
    msgIdx := mIdx
    title := orElseStr m.title "(Sans titre)"
    fullText := orElseStr (truthyStr m.translated_text <|> m.preview) ""
    source := m.source
    orientation :=
      match truthyStr m.orientation with
      | some o => " • " ++ o
      | none => ""
    postLink := (truthyStr m.url).map (fun u => (u, m.telegram_message_id))
    timeOf := truthyStr m.event_timestamp <|> m.created_at }

/-- The `section.zone-block` of zone number `idx`. -/
def renderZone (idx : Nat) (zone : Zone) : ZoneBlock :=
  { idx := idx
    header :=
      orElseStr
        (some (" – ".intercalate
          ([zone.region, zone.location].filterMap truthyStr)))
        "Zone inconnue"
    count := zone.messages_count
    items := (zone.messages.enum).map (fun im => renderMessage idx im.1 im.2) }

/-- `renderEvents(data)`; a `null` argument is `none`. -/
def renderEvents (data : Option EventsData) (s : State) : State :=
  match data.bind (fun d => d.zones) with
  | none => { s with events := EventsContent.text "Aucun événement." }
  | some zones =>
    if zones.length = 0 then { s with events := EventsContent.text "Aucun événement." }
    else
      { s with
        events := EventsContent.sections ((zones.enum).map (fun iz => renderZone iz.1 iz.2))
        zoneListeners := s.zoneListeners ++ (zones.enum).map (fun iz => iz.1) }

/-- The request URL of `loadEvents(country)` for a truthy panel date. -/
def eventsUrl (encodeURIComponent : String → String) (country currentPanelDate : String) :
    String :=
  if currentPanelDate = "ALL" then
    "/api/countries/" ++ encodeURIComponent country ++ "/all-events"
  else
    "/api/countries/" ++ encodeURIComponent country ++ "/events?date=" ++ currentPanelDate

/-- `loadEvents(country)` up to its `await fetch(url)`; the second component is
the URL requested, `none` when the function returned before any request. -/
def loadEventsBegin (encodeURIComponent : String → String) (country : String) (s : State) :
    State × Option String :=
  match truthyStr s.currentPanelDate with
  | none => ({ s with events := EventsContent.text "Aucune date sélectionnée." }, none)
  | some d =>
    let url := eventsUrl encodeURIComponent country d
    ({ s with events := EventsContent.text "Chargement...", fetched := s.fetched ++ [url] },
      some url)

/-- `loadEvents(country)` from the response on. -/
def loadEventsResume (resp : Response (Option EventsData)) (s : State) : State :=
  match resp with
  | Response.failure _ => { s with events := EventsContent.text "Erreur de chargement." }
  | Response.success data => renderEvents data s

/-- `loadEvents(country)`, the server being the function `fetch`. -/
def loadEvents (encodeURIComponent : String → String) (country : String)
    (fetch : String → Response (Option EventsData)) (s : State) : State :=
  match loadEventsBegin encodeURIComponent country s with
  | (s1, none) => s1
  | (s1, some url) => loadEventsResume (fetch url) s1

/-- `loadLatestEvents(country)` up to its `await fetch(..)`. -/
def loadLatestEventsBegin (encodeURIComponent : String → String) (country : String)
    (s : State) : State :=
  { s with
    events := EventsContent.text "Chargement..."
    fetched := s.fetched ++
      ["/api/countries/" ++ encodeURIComponent country ++ "/latest-events"] }

/-- `select.add(opt, 1)`: the new option goes before the option at index 1, or
last when there is none. -/
def addOptionAtOne (select : Select) (v : String) : Select :=
  { select with options := select.options.take 1 ++ [v] ++ select.options.drop 1 }

/-- `loadLatestEvents(country)` from the response on: the date of the response
becomes the panel date and, when truthy, is added to `#timeline-panel` if no
option has it, then shown there. -/
def loadLatestEventsResume (resp : Response EventsData) (s : State) : State :=
  match resp with
  | Response.failure _ =>
    { s with events := EventsContent.text "Aucun événement pour ce pays." }
  | Response.success data =>
    let s1 := { s with currentPanelDate := data.date }
    let s2 :=
      match truthyStr s1.currentPanelDate with
      | some d =>
        let found := s1.selectPanel.options.any (fun o => o == d)
        let select := if found then s1.selectPanel else addOptionAtOne s1.selectPanel d
        { s1 with selectPanel := select.setValue d }
      | none => s1
    renderEvents (some data) s2

/-- `loadLatestEvents(country)`, the server being the function `fetch`. -/
def loadLatestEvents (encodeURIComponent : String → String) (country : String)
    (fetch : String → Response EventsData) (s : State) : State :=
  loadLatestEventsResume
    (fetch ("/api/countries/" ++ encodeURIComponent country ++ "/latest-events"))
    (loadLatestEventsBegin encodeURIComponent country s)

/-! ## Timeline selectors -/

/-- The helper `fillSelect(select, value)` of `loadTimeline`: the options are
rebuilt as "ALL" followed by the dates, the first one showing, then
`select.value = value || "ALL"`. -/
def fillSelect (timelineDates : List String) (value : Option String) : Select :=
  Select.setValue { options := "ALL" :: timelineDates, value := "ALL" } (orElseStr value "ALL")

/-- `loadTimeline()` from the response of `/api/dates` on; `dates` is the field
`data.dates`.  The two change listeners it installs are `onGlobalChange` and
`onPanelChange`. -/
def loadTimelineResume (dates : Option (List String)) (s : State) : State :=
  let s1 := { s with timelineDates := dates.getD [] }
  let s2 := { s1 with currentGlobalDate := some "ALL", currentPanelDate := some "ALL" }
  let s3 := { s2 with selectGlobal := fillSelect s2.timelineDates s2.currentGlobalDate }
  { s3 with selectPanel := fillSelect s3.timelineDates s3.currentPanelDate }

/-- `loadTimeline()`, the server answering with the field `dates`. -/
def loadTimeline (dates : Option (List String)) (s : State) : State :=
  loadTimelineResume dates { s with fetched := s.fetched ++ ["/api/dates"] }

/-- The tail shared by both change handlers: `loadActiveCountries()` and, when a
country is open, `loadEvents(currentCountry)`, both up to their request. -/
def reloadAfterDateChange (encodeURIComponent : String → String) (s : State) : State :=
  let s1 := loadActiveCountriesBegin encodeURIComponent s
  match truthyStr s1.currentCountry with
  | some c => (loadEventsBegin encodeURIComponent c s1).1
  | none => s1

/-- The `change` listener of `#timeline-global` installed by `loadTimeline`. -/
def onGlobalChange (encodeURIComponent : String → String) (s : State) : State :=
  let s1 := { s with currentGlobalDate := some s.selectGlobal.value }
  let s2 := { s1 with currentPanelDate := s1.currentGlobalDate }
  let s3 := { s2 with selectPanel := s2.selectPanel.setValue s.selectGlobal.value }
  reloadAfterDateChange encodeURIComponent s3

/-- The `change` listener of `#timeline-panel` installed by `loadTimeline`. -/
def onPanelChange (encodeURIComponent : String → String) (s : State) : State :=
  let s1 := { s with currentPanelDate := some s.selectPanel.value }
  let s2 := { s1 with currentGlobalDate := s1.currentPanelDate }
  let s3 := { s2 with selectGlobal := s2.selectGlobal.setValue s.selectPanel.value }
  reloadAfterDateChange encodeURIComponent s3

/-- The user picks the option `v` of `#timeline-global`: the element shows `v`,
then its `change` listener runs. -/
def selectInGlobal (encodeURIComponent : String → String) (v : String) (s : State) : State :=
  onGlobalChange encodeURIComponent { s with selectGlobal := s.selectGlobal.pick v }

/-- The user picks the option `v` of `#timeline-panel`: the element shows `v`,
then its `change` listener runs. -/
def selectInPanel (encodeURIComponent : String → String) (v : String) (s : State) : State :=
  onPanelChange encodeURIComponent { s with selectPanel := s.selectPanel.pick v }

/-! ## Vocabulary of the statements -/

/-- The identity counter is ahead of every overlay on the map. -/
def State.FreshIds (s : State) : Prop :=
  ∀ l ∈ s.mapLayers, l.id < s.nextId

/-- The overlays of `layers` constructed at or after counter value `base`. -/
def createdSince (base : Nat) (layers : List Layer) : List Layer :=
  layers.filter (fun l => decide (base ≤ l.id))

/-- The visible styled circles among `layers`. -/
def visibleCircles (layers : List Layer) : List Layer :=
  layers.filter (fun l => decide (l.kind = LayerKind.visible))

/-- The transparent hit-target circles among `layers`. -/
def hitTargets (layers : List Layer) : List Layer :=
  layers.filter (fun l => decide (l.kind = LayerKind.hitTarget))

/-- The names a pass over `countries` pushes to `missing`, in order. -/
def missingNames (countryCoords : Table LatLon) (countryAliases : Table String)
    (countries : List ActiveCountry) : List String :=
  (countries.filter
    (fun c => (resolveKey countryCoords countryAliases c.country).isNone)).map
    (fun c => c.country)

/-- Resolved key as the specification words it: the name when it is a key of
the coordinate table, otherwise its alias-table entry when that entry is a key
of the coordinate table. -/
def specResolvedKey (countryCoords : Table LatLon) (countryAliases : Table String)
    (name : String) : Option String :=
  if name ∈ countryCoords.keys then some name
  else
    match countryAliases.get name with
    | some a => if a ∈ countryCoords.keys then some a else none
    | none => none

/-- The text `name` occurs in `text`. -/
def Mentions (text name : String) : Prop :=
  ∃ pre post : String, text = pre ++ name ++ post

/-- What holds of the state between two iterations of the `forEach` of a pass
started at counter value `base`. -/
structure PassInv (countryCoords : Table LatLon) (base : Nat) (st : State) : Prop where
  base_le : base ≤ st.nextId
  fresh : ∀ l ∈ st.mapLayers, l.id < st.nextId
  visible_eq : visibleCircles (createdSince base st.mapLayers) = st.markersByCountry.values
  hit_keys :
    (hitTargets (createdSince base st.mapLayers)).map Layer.key = st.markersByCountry.keys
  value_keys : st.markersByCountry.values.map Layer.key = st.markersByCountry.keys
  nodup : st.markersByCountry.keys.Nodup
  keys_coords : ∀ k ∈ st.markersByCountry.keys, countryCoords.has k = true

/-- The zone sections shown in `#events`. -/
def EventsContent.blocks : EventsContent → List ZoneBlock
  | EventsContent.text _ => []
  | EventsContent.sections bs => bs

/-- The pieces of `cs` between the occurrences of the character `sep`. -/
def splitOnChar (sep : Char) : List Char → List (List Char)
  | [] => [[]]
  | x :: xs =>
    if x = sep then [] :: splitOnChar sep xs
    else
      match splitOnChar sep xs with
      | [] => [[x]]
      | y :: ys => (x :: y) :: ys

/-- What follows the first occurrence of `sep` in `cs`, `none` without one. -/
def afterChar (sep : Char) : List Char → Option (List Char)
  | [] => none
  | x :: xs => if x = sep then some xs else afterChar sep xs

/-- The value a URL gives the query parameter `name`, as a server reads it
before percent-decoding: the query runs from the first `?` to the first `#` and
is cut at every `&`; the value is what follows `name=` in the first such piece. -/
def queryParam (url name : String) : Option String :=
  match afterChar '?' ((splitOnChar '#' url.data).headD []) with
  | none => none
  | some query =>
    ((splitOnChar '&' query).findSome? (fun piece =>
      match splitOnChar '=' piece with
      | k :: _ => if k = name.data then afterChar '=' piece else none
      | [] => none)).map String.mk

/-! ## Example inputs -/

/-- A freshly loaded page: both selectors on "ALL", no marker, banner hidden. -/
def pageState : State :=
  { timelineDates := []
    currentGlobalDate := some "ALL"
    currentPanelDate := some "ALL"
    currentCountry := none
    markersByCountry := []
    mapLayers := []
    nextId := 0
    selectGlobal := { options := ["ALL"], value := "ALL" }
    selectPanel := { options := ["ALL"], value := "ALL" }
    alert := some { textContent := "", display := "none" }
    events := EventsContent.text ""
    zoneListeners := []
    fetched := [] }

/-- The same page without the element `#dashboard-alert`. -/
def pageWithoutAlert : State :=
  { pageState with alert := none }

/-- A server answering every request with the given active countries. -/
def serving (countries : List ActiveCountry) (ignored : List String) :
    String → Response ApiData :=
  fun _ => Response.success { countries := some countries, ignored_countries := some ignored }

/-- Coordinates `{"France": [46.2, 2.2]}`. -/
def franceCoords : Table LatLon := [("France", { lat := 46.2, lon := 2.2 })]

/-- Countries payload `[{country: "France", events_count: 3}]`. -/
def franceOnly : List ActiveCountry := [{ country := "France", events_count := 3 }]

/-- Countries payload `[{country: "Foo", events_count: 1}]`. -/
def fooOnly : List ActiveCountry := [{ country := "Foo", events_count := 1 }]

/-- The page after a first pass that found France active. -/
def afterFrancePass : State :=
  (loadActiveCountries false id franceCoords [] (serving franceOnly []) pageState).state

/-- The page after a second pass in which no country is active. -/
def afterEmptyPass : State :=
  (loadActiveCountries false id franceCoords [] (serving [] []) afterFrancePass).state

/-- The page after `loadTimeline` received the dates 2024-05-01 and 2024-05-02. -/
def afterTimeline : State :=
  loadTimeline (some ["2024-05-01", "2024-05-02"]) pageState

/-- Then `loadLatestEvents("France")` is answered with the date 2024-06-15,
which is not among the timeline dates. -/
def afterLatestEvents : State :=
  loadLatestEvents id "France"
    (fun _ => Response.success { zones := some [], date := some "2024-06-15" }) afterTimeline

/-- Then the user picks 2024-05-01 in `#timeline-panel`. -/
def afterFirstPick : State :=
  selectInPanel id "2024-05-01" afterLatestEvents

/-- Then the user picks 2024-06-15 in `#timeline-panel`. -/
def afterPanelPick : State :=
  selectInPanel id "2024-06-15" afterFirstPick

/-! # Theorems -/

/-! ## C4, C5: radius and colour tiers of `markerStyle` -/

theorem markerStyle_radius_eq (IS_MOBILE : Bool) (count : Int) :
    (markerStyle IS_MOBILE count).radius =
      (if IS_MOBILE then 8 else 4) +
        ((if IS_MOBILE then 13 else 7) - (if IS_MOBILE then 8 else 4)) *
          min (((max 1 (if count = 0 then 1 else count) : Int) : ℚ) / 30) 1 := rfl

theorem countFloor_mono {a b : Int} (h : a ≤ b) :
    max 1 (if a = 0 then 1 else a) ≤ max 1 (if b = 0 then 1 else b) := by
  split_ifs <;> omega

/-- C4: for both values of `IS_MOBILE`, the radius of `markerStyle` is
non-decreasing in the event count, and for every count of at least 30 it is
exactly the configured maximum, 13 on touch devices and 7 on pointer devices. -/
theorem markerStyle_radius_mono_clamped (IS_MOBILE : Bool) :
    (∀ a b : Int, a ≤ b →
      (markerStyle IS_MOBILE a).radius ≤ (markerStyle IS_MOBILE b).radius) ∧
    (∀ count : Int, 30 ≤ count →
      (markerStyle IS_MOBILE count).radius = maxRadius IS_MOBILE ∧
      (markerStyle true count).radius = 13 ∧ (markerStyle false count).radius = 7) := by
  constructor
  · intro a b hab
    rw [markerStyle_radius_eq, markerStyle_radius_eq]
    have hn : ((max 1 (if a = 0 then 1 else a) : Int) : ℚ) ≤
        ((max 1 (if b = 0 then 1 else b) : Int) : ℚ) := by
      exact_mod_cast countFloor_mono hab
    have hr : min (((max 1 (if a = 0 then 1 else a) : Int) : ℚ) / 30) 1 ≤
        min (((max 1 (if b = 0 then 1 else b) : Int) : ℚ) / 30) 1 := by
      apply min_le_min _ le_rfl
      exact div_le_div_of_nonneg_right hn (by norm_num)
    cases IS_MOBILE
    · simp only [Bool.false_eq_true, if_false]
      nlinarith
    · simp only [if_true]
      nlinarith
  · intro count hc
    have hn : max 1 (if count = 0 then 1 else count) = count := by
      split_ifs <;> omega
    have hq : (30 : ℚ) ≤ (count : ℚ) := by exact_mod_cast hc
    have hr : min ((count : ℚ) / 30) 1 = 1 := by
      apply min_eq_right
      rw [le_div_iff₀ (by norm_num)]
      linarith
    refine ⟨?_, ?_, ?_⟩
    · rw [markerStyle_radius_eq, hn, hr]
      cases IS_MOBILE <;> simp [maxRadius]
    · rw [markerStyle_radius_eq, hn, hr]; norm_num
    · rw [markerStyle_radius_eq, hn, hr]; norm_num

theorem markerStyle_radius_mono_clamped_witness :
    (markerStyle true 3).radius ≤ (markerStyle true 12).radius ∧
    (markerStyle false 45).radius = 7 :=
  ⟨(markerStyle_radius_mono_clamped true).1 3 12 (by decide),
   ((markerStyle_radius_mono_clamped false).2 45 (by decide)).2.2⟩

theorem markerStyle_color_eq (IS_MOBILE : Bool) (count : Int) :
    (markerStyle IS_MOBILE count).color =
      (if max 1 (if count = 0 then 1 else count) < 5 then "#22c55e"
       else if max 1 (if count = 0 then 1 else count) < 15 then "#eab308" else "#f97316") := rfl

theorem markerStyle_fillColor_eq (IS_MOBILE : Bool) (count : Int) :
    (markerStyle IS_MOBILE count).fillColor = (markerStyle IS_MOBILE count).color := rfl

/-- C5: `markerStyle` gives colour and fill colour green (#22c55e) for a count
from 1 to 4, yellow (#eab308) from 5 to 14, orange (#f97316) from 15 on, and
the two are always the same value. -/
theorem markerStyle_color_tiers (IS_MOBILE : Bool) (count : Int) :
    (1 ≤ count ∧ count ≤ 4 →
      (markerStyle IS_MOBILE count).color = "#22c55e" ∧
      (markerStyle IS_MOBILE count).fillColor = "#22c55e") ∧
    (5 ≤ count ∧ count ≤ 14 →
      (markerStyle IS_MOBILE count).color = "#eab308" ∧
      (markerStyle IS_MOBILE count).fillColor = "#eab308") ∧
    (15 ≤ count →
      (markerStyle IS_MOBILE count).color = "#f97316" ∧
      (markerStyle IS_MOBILE count).fillColor = "#f97316") ∧
    (markerStyle IS_MOBILE count).color = (markerStyle IS_MOBILE count).fillColor := by
  refine ⟨?_, ?_, ?_, (markerStyle_fillColor_eq IS_MOBILE count).symm⟩
  · rintro ⟨h1, h4⟩
    have hn : max 1 (if count = 0 then 1 else count) = count := by
      split_ifs <;> omega
    rw [markerStyle_fillColor_eq, markerStyle_color_eq, hn]
    have : count < 5 := by omega
    simp [this]
  · rintro ⟨h5, h14⟩
    have hn : max 1 (if count = 0 then 1 else count) = count := by
      split_ifs <;> omega
    rw [markerStyle_fillColor_eq, markerStyle_color_eq, hn]
    have h1 : ¬ count < 5 := by omega
    have h2 : count < 15 := by omega
    simp [h1, h2]
  · intro h15
    have hn : max 1 (if count = 0 then 1 else count) = count := by
      split_ifs <;> omega
    rw [markerStyle_fillColor_eq, markerStyle_color_eq, hn]
    have h1 : ¬ count < 5 := by omega
    have h2 : ¬ count < 15 := by omega
    simp [h1, h2]

theorem markerStyle_color_tiers_witness :
    (markerStyle false 3).color = "#22c55e" ∧ (markerStyle false 3).fillColor = "#22c55e" :=
  (markerStyle_color_tiers false 3).1 ⟨by decide, by decide⟩

/-! ## Tables -/

theorem Table.has_iff_mem_keys {α : Type} (t : Table α) (k : String) :
    t.has k = true ↔ k ∈ t.keys := by
  induction t with
  | nil => simp [Table.has, Table.get, Table.keys]
  | cons p t ih =>
    obtain ⟨k', v⟩ := p
    simp only [Table.has, Table.get, Table.keys, List.lookup_cons, List.map_cons,
      List.mem_cons] at ih ⊢
    by_cases h : k = k'
    · subst h; simp
    · have hb : (k == k') = false := by simpa using h
      simp [hb, h, ih]

theorem Table.get_isSome_iff_mem_keys {α : Type} (t : Table α) (k : String) :
    (t.get k).isSome = true ↔ k ∈ t.keys :=
  Table.has_iff_mem_keys t k

theorem Table.set_of_not_mem {α : Type} (t : Table α) (k : String) (v : α)
    (h : k ∉ t.keys) : t.set k v = t ++ [(k, v)] := by
  have hh : t.has k = false := by
    cases hb : t.has k with
    | false => rfl
    | true => exact absurd ((Table.has_iff_mem_keys t k).1 hb) h
  simp [Table.set, hh]

theorem Table.get_of_mem_keys {α : Type} (t : Table α) (k : String) (h : k ∈ t.keys) :
    ∃ v, t.get k = some v ∧ (k, v) ∈ t := by
  have hs := (Table.get_isSome_iff_mem_keys t k).2 h
  obtain ⟨v, hv⟩ := Option.isSome_iff_exists.1 hs
  refine ⟨v, hv, ?_⟩
  have := (List.lookup_eq_some_iff (l := t) (k := k) (b := v)).1 hv
  obtain ⟨l1, l2, rfl, _⟩ := this
  simp

theorem Table.has_eq_false_of_not_mem {α : Type} (t : Table α) (k : String)
    (h : k ∉ t.keys) : t.has k = false := by
  cases hb : t.has k with
  | false => rfl
  | true => exact absurd ((Table.has_iff_mem_keys t k).1 hb) h

/-! ## Key resolution -/

/-- A resolved key is the name itself or the non-empty alias entry of the name. -/
theorem resolveKey_some_cases {countryCoords : Table LatLon} {countryAliases : Table String}
    {name k : String} (h : resolveKey countryCoords countryAliases name = some k) :
    k = name ∨ (countryAliases.get name = some k ∧ k ≠ "") := by
  unfold resolveKey at h
  split at h
  · cases h
    exact Or.inl rfl
  · cases ha : countryAliases.get name with
    | none =>
      rw [ha] at h
      simp [truthyStr] at h
    | some a =>
      rw [ha] at h
      by_cases he : a = ""
      · simp [truthyStr, he] at h
      · simp only [truthyStr, he, if_false] at h
        split at h
        · cases h
          exact Or.inr ⟨rfl, he⟩
        · cases h

/-- The key the callback works with, for a name whose lookup does not end in an
inherited member: the name itself when it is a key of the coordinate table,
otherwise the alias entry of the name when that entry is a non-empty string and
a key of the coordinate table. -/
theorem resolveKey_of_claimed {countryCoords : Table LatLon} {countryAliases : Table String}
    {name k : String}
    (hown : ∀ k', resolveKey countryCoords countryAliases name = some k' →
      countryCoords.has k' = true)
    (h : (name ∈ countryCoords.keys ∧ k = name) ∨
      (name ∉ countryCoords.keys ∧ countryAliases.get name = some k ∧ k ≠ "" ∧
        k ∈ countryCoords.keys)) :
    resolveKey countryCoords countryAliases name = some k := by
  rcases h with ⟨hn, rfl⟩ | ⟨hn, ha, he, hk⟩
  · have hh := (Table.has_iff_mem_keys _ _).2 hn
    simp [resolveKey, Table.hasIn, hh]
  · by_cases hin : countryCoords.hasIn name = true
    · have hr : resolveKey countryCoords countryAliases name = some name := by
        simp [resolveKey, hin]
      exact absurd ((Table.has_iff_mem_keys _ _).1 (hown name hr)) hn
    · have hk' : (countryCoords.get k).isSome = true :=
        (Table.get_isSome_iff_mem_keys _ _).2 hk
      simp [resolveKey, hin, ha, truthyStr, he, Table.truthyAt, hk']

theorem resolveKey_none_of_unresolved {countryCoords : Table LatLon}
    {countryAliases : Table String} {name : String}
    (hown : ∀ k', resolveKey countryCoords countryAliases name = some k' →
      countryCoords.has k' = true)
    (hn : name ∉ countryCoords.keys)
    (ha : ∀ al, countryAliases.get name = some al → al ∉ countryCoords.keys) :
    resolveKey countryCoords countryAliases name = none := by
  cases hr : resolveKey countryCoords countryAliases name with
  | none => rfl
  | some k =>
    exfalso
    have hk := (Table.has_iff_mem_keys _ _).1 (hown k hr)
    rcases resolveKey_some_cases hr with rfl | ⟨hal, _⟩
    · exact hn hk
    · exact ha k hal hk

/-! ## One iteration of the pass -/

/-- The four outcomes of the callback: the name is pushed to `missing`, the
destructuring throws, the iteration returns early, or the two circles are
built and registered. -/
theorem addCountry_cases (IS_MOBILE : Bool) (countryCoords : Table LatLon)
    (countryAliases : Table String) (p : State × List String) (c : ActiveCountry) :
    (resolveKey countryCoords countryAliases c.country = none ∧
      addCountry IS_MOBILE countryCoords countryAliases p c =
        Except.ok (p.1, p.2 ++ [c.country])) ∨
    (∃ k, resolveKey countryCoords countryAliases c.country = some k ∧
      countryCoords.has k = false ∧
      addCountry IS_MOBILE countryCoords countryAliases p c = Except.error p.1) ∨
    (∃ k, resolveKey countryCoords countryAliases c.country = some k ∧
      countryCoords.has k = true ∧
      (k ∈ p.1.markersByCountry.keys ∨ inheritedName k = true) ∧
      addCountry IS_MOBILE countryCoords countryAliases p c = Except.ok p) ∨
    (∃ k h m, resolveKey countryCoords countryAliases c.country = some k ∧
      countryCoords.has k = true ∧
      k ∉ p.1.markersByCountry.keys ∧ inheritedName k = false ∧
      h.id = p.1.nextId ∧ h.kind = LayerKind.hitTarget ∧ h.key = k ∧
      m.id = p.1.nextId + 1 ∧ m.kind = LayerKind.visible ∧ m.key = k ∧
      addCountry IS_MOBILE countryCoords countryAliases p c =
        Except.ok ({ p.1 with
            nextId := p.1.nextId + 2
            mapLayers := p.1.mapLayers ++ [h, m]
            markersByCountry := p.1.markersByCountry ++ [(k, m)] }, p.2)) := by
  cases hr : resolveKey countryCoords countryAliases c.country with
  | none =>
    left
    exact ⟨rfl, by simp [addCountry, hr]⟩
  | some k =>
    right
    cases hll : countryCoords.get k with
    | none =>
      left
      exact ⟨k, rfl, by simp [Table.has, hll], by simp [addCountry, hr, hll]⟩
    | some ll =>
      right
      have hk : countryCoords.has k = true := by simp [Table.has, hll]
      by_cases hreg : k ∈ p.1.markersByCountry.keys
      · left
        have hs := (Table.get_isSome_iff_mem_keys _ _).2 hreg
        exact ⟨k, rfl, hk, Or.inl hreg, by simp [addCountry, hr, hll, Table.truthyAt, hs]⟩
      · have hs : (p.1.markersByCountry.get k).isSome = false :=
          Table.has_eq_false_of_not_mem _ _ hreg
        cases hi : inheritedName k with
        | true =>
          left
          exact ⟨k, rfl, hk, Or.inr hi, by simp [addCountry, hr, hll, Table.truthyAt, hi]⟩
        | false =>
          right
          refine ⟨k, interactiveCircle p.1.nextId k ll (markerStyle IS_MOBILE c.events_count),
            visibleMarker IS_MOBILE (p.1.nextId + 1) k ll
              (markerStyle IS_MOBILE c.events_count) c.events_count,
            rfl, hk, hreg, hi, rfl, rfl, rfl, rfl, rfl, rfl, ?_⟩
          simp only [addCountry, hr, hll, Table.truthyAt, hs, hi, Bool.or_self,
            Bool.false_eq_true, if_false, Table.set_of_not_mem _ _ _ hreg]

theorem addCountry_inv (IS_MOBILE : Bool) (countryCoords : Table LatLon)
    (countryAliases : Table String) (base : Nat) (p q : State × List String)
    (c : ActiveCountry) (h : PassInv countryCoords base p.1)
    (hq : addCountry IS_MOBILE countryCoords countryAliases p c = Except.ok q) :
    PassInv countryCoords base q.1 := by
  rcases addCountry_cases IS_MOBILE countryCoords countryAliases p c with
    ⟨_, he⟩ | ⟨k, _, _, he⟩ | ⟨k, _, _, _, he⟩ |
    ⟨k, hl, m, hr, hown, hk, _, hid, hkind, hkey, mid, mkind, mkey, he⟩
  · rw [he] at hq; cases hq; exact h
  · rw [he] at hq; cases hq
  · rw [he] at hq; cases hq; exact h
  · rw [he] at hq; cases hq
    have hb := h.base_le
    have h1 : decide (base ≤ hl.id) = true := by simp [hid]; omega
    have h2 : decide (base ≤ m.id) = true := by simp [mid]; omega
    have h3 : decide (hl.kind = LayerKind.visible) = false := by simp [hkind]
    have h4 : decide (m.kind = LayerKind.visible) = true := by simp [mkind]
    have h5 : decide (hl.kind = LayerKind.hitTarget) = true := by simp [hkind]
    have h6 : decide (m.kind = LayerKind.hitTarget) = false := by simp [mkind]
    refine ⟨?_, ?_, ?_, ?_, ?_, ?_, ?_⟩
    · show base ≤ p.1.nextId + 2
      omega
    · intro l hlm
      show l.id < p.1.nextId + 2
      have hlm' : l ∈ p.1.mapLayers ++ [hl, m] := hlm
      rcases List.mem_append.1 hlm' with ho | hn
      · have := h.fresh l ho
        omega
      · simp only [List.mem_cons, List.mem_singleton, List.not_mem_nil, or_false] at hn
        rcases hn with rfl | rfl <;> omega
    · show visibleCircles (createdSince base (p.1.mapLayers ++ [hl, m])) =
        Table.values (p.1.markersByCountry ++ [(k, m)])
      have := h.visible_eq
      simp only [visibleCircles, createdSince, Table.values, List.filter_append,
        List.filter_cons, List.filter_nil, h1, h2, h3, h4, if_true, List.map_append,
        List.map_cons, List.map_nil, Bool.false_eq_true, if_false] at this ⊢
      rw [this]
    · show (hitTargets (createdSince base (p.1.mapLayers ++ [hl, m]))).map Layer.key =
        Table.keys (p.1.markersByCountry ++ [(k, m)])
      have := h.hit_keys
      simp only [hitTargets, createdSince, Table.keys, List.filter_append,
        List.filter_cons, List.filter_nil, h1, h2, h5, h6, if_true, List.map_append,
        List.map_cons, List.map_nil, Bool.false_eq_true, if_false] at this ⊢
      rw [this, hkey]
    · show (Table.values (p.1.markersByCountry ++ [(k, m)])).map Layer.key =
        Table.keys (p.1.markersByCountry ++ [(k, m)])
      have := h.value_keys
      simp only [Table.values, Table.keys, List.map_append, List.map_cons,
        List.map_nil] at this ⊢
      simp [this, mkey]
    · show (Table.keys (p.1.markersByCountry ++ [(k, m)])).Nodup
      have := h.nodup
      simp only [Table.keys, List.map_append, List.map_cons, List.map_nil] at this hk ⊢
      rw [List.nodup_append]
      refine ⟨this, List.nodup_singleton _, ?_⟩
      intro x hx hx'
      simp only [List.mem_singleton] at hx'
      subst hx'
      exact hk hx
    · intro x hx
      have hx' : x ∈ Table.keys (p.1.markersByCountry ++ [(k, m)]) := hx
      simp only [Table.keys, List.map_append, List.map_cons, List.map_nil,
        List.mem_append, List.mem_singleton] at hx'
      rcases hx' with ho | rfl
      · exact h.keys_coords x ho
      · exact hown

theorem addCountry_keys_mono (IS_MOBILE : Bool) (countryCoords : Table LatLon)
    (countryAliases : Table String) (p q : State × List String) (c : ActiveCountry)
    (hq : addCountry IS_MOBILE countryCoords countryAliases p c = Except.ok q)
    (k : String) (h : k ∈ p.1.markersByCountry.keys) :
    k ∈ q.1.markersByCountry.keys := by
  rcases addCountry_cases IS_MOBILE countryCoords countryAliases p c with
    ⟨_, he⟩ | ⟨k', _, _, he⟩ | ⟨k', _, _, _, he⟩ |
    ⟨k', hl, m, _, _, _, _, _, _, _, _, _, _, he⟩
  · rw [he] at hq; cases hq; exact h
  · rw [he] at hq; cases hq
  · rw [he] at hq; cases hq; exact h
  · rw [he] at hq; cases hq
    show k ∈ Table.keys (p.1.markersByCountry ++ [(k', m)])
    simp only [Table.keys, List.map_append, List.mem_append] at h ⊢
    exact Or.inl h

/-- A completed iteration found an own coordinate entry for the key it resolved,
and registered the key unless it is an inherited name. -/
theorem addCountry_registers (IS_MOBILE : Bool) (countryCoords : Table LatLon)
    (countryAliases : Table String) (p q : State × List String) (c : ActiveCountry)
    (hq : addCountry IS_MOBILE countryCoords countryAliases p c = Except.ok q)
    (k : String) (h : resolveKey countryCoords countryAliases c.country = some k) :
    countryCoords.has k = true ∧
    (inheritedName k = false → k ∈ q.1.markersByCountry.keys) := by
  rcases addCountry_cases IS_MOBILE countryCoords countryAliases p c with
    ⟨hn, _⟩ | ⟨k', _, _, he⟩ | ⟨k', hr, hown, hk, he⟩ |
    ⟨k', hl, m, hr, hown, _, _, _, _, _, _, _, _, he⟩
  · rw [h] at hn; cases hn
  · rw [he] at hq; cases hq
  · rw [h] at hr; cases hr
    rw [he] at hq; cases hq
    refine ⟨hown, fun hi => ?_⟩
    rcases hk with hk | hk
    · exact hk
    · rw [hi] at hk; cases hk
  · rw [h] at hr; cases hr
    rw [he] at hq; cases hq
    refine ⟨hown, fun _ => ?_⟩
    show k ∈ Table.keys (p.1.markersByCountry ++ [(k, m)])
    simp [Table.keys]

theorem addCountry_alert (IS_MOBILE : Bool) (countryCoords : Table LatLon)
    (countryAliases : Table String) (p q : State × List String) (c : ActiveCountry)
    (hq : addCountry IS_MOBILE countryCoords countryAliases p c = Except.ok q) :
    q.1.alert = p.1.alert := by
  rcases addCountry_cases IS_MOBILE countryCoords countryAliases p c with
    ⟨_, he⟩ | ⟨k', _, _, he⟩ | ⟨k', _, _, _, he⟩ |
    ⟨k', hl, m, _, _, _, _, _, _, _, _, _, _, he⟩
  · rw [he] at hq; cases hq; rfl
  · rw [he] at hq; cases hq
  · rw [he] at hq; cases hq; rfl
  · rw [he] at hq; cases hq; rfl

theorem addCountry_missing (IS_MOBILE : Bool) (countryCoords : Table LatLon)
    (countryAliases : Table String) (p q : State × List String) (c : ActiveCountry)
    (hq : addCountry IS_MOBILE countryCoords countryAliases p c = Except.ok q) :
    q.2 = p.2 ++ missingNames countryCoords countryAliases [c] := by
  rcases addCountry_cases IS_MOBILE countryCoords countryAliases p c with
    ⟨hn, he⟩ | ⟨k', _, _, he⟩ | ⟨k', hr, _, _, he⟩ |
    ⟨k', hl, m, hr, _, _, _, _, _, _, _, _, _, he⟩
  · rw [he] at hq; cases hq; simp [missingNames, hn]
  · rw [he] at hq; cases hq
  · rw [he] at hq; cases hq; simp [missingNames, hr]
  · rw [he] at hq; cases hq; simp [missingNames, hr]

/-! ## The whole pass -/

theorem foldl_removeLayer_subset (ms layers : List Layer) :
    ∀ l ∈ ms.foldl removeLayer layers, l ∈ layers := by
  induction ms generalizing layers with
  | nil => intro l h; exact h
  | cons m ms ih =>
    intro l h
    have hm := ih (removeLayer layers m) l h
    exact (List.mem_filter.1 hm).1

theorem clearMarkers_inv (countryCoords : Table LatLon) (s : State) (h : s.FreshIds) :
    PassInv countryCoords s.nextId (clearMarkers s) := by
  have hfresh : ∀ l ∈ (clearMarkers s).mapLayers, l.id < s.nextId := fun l hl =>
    h l (foldl_removeLayer_subset _ _ l hl)
  have hnone : createdSince s.nextId (clearMarkers s).mapLayers = [] := by
    unfold createdSince
    rw [List.filter_eq_nil_iff]
    intro l hl
    have := hfresh l hl
    simp only [decide_eq_true_eq]
    omega
  refine ⟨le_rfl, hfresh, ?_, ?_, rfl, List.nodup_nil, ?_⟩
  · rw [hnone]; rfl
  · rw [hnone]; rfl
  · intro k hk
    cases hk

/-- The loop unfolds one iteration at a time. -/
theorem forEachCountry_cons_ok (IS_MOBILE : Bool) (countryCoords : Table LatLon)
    (countryAliases : Table String) (c : ActiveCountry) (cs : List ActiveCountry)
    (p r : State × List String)
    (h : forEachCountry IS_MOBILE countryCoords countryAliases (c :: cs) p = Except.ok r) :
    ∃ q, addCountry IS_MOBILE countryCoords countryAliases p c = Except.ok q ∧
      forEachCountry IS_MOBILE countryCoords countryAliases cs q = Except.ok r := by
  cases hq : addCountry IS_MOBILE countryCoords countryAliases p c with
  | ok q =>
    simp only [forEachCountry, hq] at h
    exact ⟨q, rfl, h⟩
  | error e =>
    simp only [forEachCountry, hq] at h
    cases h

theorem forEachCountry_inv (IS_MOBILE : Bool) (countryCoords : Table LatLon)
    (countryAliases : Table String) (base : Nat) (cs : List ActiveCountry)
    (p r : State × List String) (h : PassInv countryCoords base p.1)
    (hr : forEachCountry IS_MOBILE countryCoords countryAliases cs p = Except.ok r) :
    PassInv countryCoords base r.1 := by
  induction cs generalizing p with
  | nil =>
    simp only [forEachCountry] at hr
    cases hr
    exact h
  | cons c cs ih =>
    obtain ⟨q, hq, hrest⟩ := forEachCountry_cons_ok _ _ _ _ _ _ _ hr
    exact ih q (addCountry_inv IS_MOBILE countryCoords countryAliases base p q c h hq) hrest

theorem forEachCountry_keys_mono (IS_MOBILE : Bool) (countryCoords : Table LatLon)
    (countryAliases : Table String) (cs : List ActiveCountry) (p r : State × List String)
    (hr : forEachCountry IS_MOBILE countryCoords countryAliases cs p = Except.ok r)
    (k : String) (h : k ∈ p.1.markersByCountry.keys) :
    k ∈ r.1.markersByCountry.keys := by
  induction cs generalizing p with
  | nil =>
    simp only [forEachCountry] at hr
    cases hr
    exact h
  | cons c cs ih =>
    obtain ⟨q, hq, hrest⟩ := forEachCountry_cons_ok _ _ _ _ _ _ _ hr
    exact ih q hrest
      (addCountry_keys_mono IS_MOBILE countryCoords countryAliases p q c hq k h)

theorem forEachCountry_registers (IS_MOBILE : Bool) (countryCoords : Table LatLon)
    (countryAliases : Table String) (cs : List ActiveCountry) (p r : State × List String)
    (hr : forEachCountry IS_MOBILE countryCoords countryAliases cs p = Except.ok r)
    (c : ActiveCountry) (hc : c ∈ cs) (k : String)
    (h : resolveKey countryCoords countryAliases c.country = some k) :
    countryCoords.has k = true ∧
    (inheritedName k = false → k ∈ r.1.markersByCountry.keys) := by
  induction cs generalizing p with
  | nil => cases hc
  | cons c' cs ih =>
    obtain ⟨q, hq, hrest⟩ := forEachCountry_cons_ok _ _ _ _ _ _ _ hr
    rcases List.mem_cons.1 hc with rfl | hin
    · have := addCountry_registers IS_MOBILE countryCoords countryAliases p q c hq k h
      exact ⟨this.1, fun hi =>
        forEachCountry_keys_mono IS_MOBILE countryCoords countryAliases cs q r hrest k
          (this.2 hi)⟩
    · exact ih q hrest hin

theorem forEachCountry_alert (IS_MOBILE : Bool) (countryCoords : Table LatLon)
    (countryAliases : Table String) (cs : List ActiveCountry) (p r : State × List String)
    (hr : forEachCountry IS_MOBILE countryCoords countryAliases cs p = Except.ok r) :
    r.1.alert = p.1.alert := by
  induction cs generalizing p with
  | nil =>
    simp only [forEachCountry] at hr
    cases hr
    rfl
  | cons c cs ih =>
    obtain ⟨q, hq, hrest⟩ := forEachCountry_cons_ok _ _ _ _ _ _ _ hr
    exact (ih q hrest).trans (addCountry_alert IS_MOBILE countryCoords countryAliases p q c hq)

theorem missingNames_cons (countryCoords : Table LatLon) (countryAliases : Table String)
    (c : ActiveCountry) (cs : List ActiveCountry) :
    missingNames countryCoords countryAliases (c :: cs) =
      missingNames countryCoords countryAliases [c] ++
        missingNames countryCoords countryAliases cs := by
  unfold missingNames
  rw [← List.map_append, ← List.filter_append]
  rfl

theorem forEachCountry_missing (IS_MOBILE : Bool) (countryCoords : Table LatLon)
    (countryAliases : Table String) (cs : List ActiveCountry) (p r : State × List String)
    (hr : forEachCountry IS_MOBILE countryCoords countryAliases cs p = Except.ok r) :
    r.2 = p.2 ++ missingNames countryCoords countryAliases cs := by
  induction cs generalizing p with
  | nil =>
    simp only [forEachCountry] at hr
    cases hr
    simp [missingNames]
  | cons c cs ih =>
    obtain ⟨q, hq, hrest⟩ := forEachCountry_cons_ok _ _ _ _ _ _ _ hr
    rw [ih q hrest, addCountry_missing IS_MOBILE countryCoords countryAliases p q c hq,
      List.append_assoc, ← missingNames_cons]

/-- A successful pass: the loop completed, and the final state is the state the
loop ended in with the banner updated. -/
theorem loadActiveCountries_success_eq (IS_MOBILE : Bool)
    (encodeURIComponent : String → String) (countryCoords : Table LatLon)
    (countryAliases : Table String) (fetch : String → Response ApiData) (s s' : State)
    (apiData : ApiData)
    (hok : fetch (activeCountriesUrl encodeURIComponent s) = Response.success apiData)
    (hdone : loadActiveCountries IS_MOBILE encodeURIComponent countryCoords countryAliases
      fetch s = Outcome.done s') :
    ∃ r : State × List String,
      forEachCountry IS_MOBILE countryCoords countryAliases (apiData.countries.getD [])
        (clearMarkers (loadActiveCountriesBegin encodeURIComponent s), []) = Except.ok r ∧
      s'.markersByCountry = r.1.markersByCountry ∧
      s'.mapLayers = r.1.mapLayers ∧
      s'.nextId = r.1.nextId ∧
      s'.alert = s.alert.map
        (updateAlert (missingNames countryCoords countryAliases (apiData.countries.getD []))
          (apiData.ignored_countries.getD [])) := by
  unfold loadActiveCountries at hdone
  rw [hok] at hdone
  simp only [loadActiveCountriesResume] at hdone
  cases hr : forEachCountry IS_MOBILE countryCoords countryAliases
      (apiData.countries.getD [])
      (clearMarkers (loadActiveCountriesBegin encodeURIComponent s), []) with
  | error e =>
    rw [hr] at hdone
    cases hdone
  | ok r =>
    rw [hr] at hdone
    have halert := forEachCountry_alert IS_MOBILE countryCoords countryAliases _ _ r hr
    have hmiss := forEachCountry_missing IS_MOBILE countryCoords countryAliases _ _ r hr
    have ha0 : (clearMarkers (loadActiveCountriesBegin encodeURIComponent s)).alert =
        s.alert := rfl
    simp only [List.nil_append] at hmiss
    rw [ha0] at halert
    refine ⟨r, rfl, ?_⟩
    cases hal : r.1.alert with
    | none =>
      simp only [hal] at hdone
      cases hdone
      refine ⟨rfl, rfl, rfl, ?_⟩
      rw [← halert, hal]
      rfl
    | some al =>
      simp only [hal] at hdone
      cases hdone
      refine ⟨rfl, rfl, rfl, ?_⟩
      rw [← halert, hal, hmiss]
      rfl

theorem loadActiveCountries_inv (IS_MOBILE : Bool)
    (encodeURIComponent : String → String) (countryCoords : Table LatLon)
    (countryAliases : Table String) (fetch : String → Response ApiData) (s s' : State)
    (apiData : ApiData) (hfresh : s.FreshIds)
    (hok : fetch (activeCountriesUrl encodeURIComponent s) = Response.success apiData)
    (hdone : loadActiveCountries IS_MOBILE encodeURIComponent countryCoords countryAliases
      fetch s = Outcome.done s') :
    PassInv countryCoords s.nextId s' := by
  obtain ⟨r, hr, h1, h2, h3, _⟩ := loadActiveCountries_success_eq IS_MOBILE
    encodeURIComponent countryCoords countryAliases fetch s s' apiData hok hdone
  have h0 : PassInv countryCoords s.nextId
      (clearMarkers (loadActiveCountriesBegin encodeURIComponent s)) :=
    clearMarkers_inv countryCoords (loadActiveCountriesBegin encodeURIComponent s) hfresh
  have hinv : PassInv countryCoords s.nextId r.1 :=
    forEachCountry_inv IS_MOBILE countryCoords countryAliases s.nextId _
      (clearMarkers (loadActiveCountriesBegin encodeURIComponent s), []) r h0 hr
  constructor
  · rw [h3]; exact hinv.base_le
  · rw [h2, h3]; exact hinv.fresh
  · rw [h1, h2]; exact hinv.visible_eq
  · rw [h1, h2]; exact hinv.hit_keys
  · rw [h1]; exact hinv.value_keys
  · rw [h1]; exact hinv.nodup
  · rw [h1]; exact hinv.keys_coords

theorem loadActiveCountries_registers (IS_MOBILE : Bool)
    (encodeURIComponent : String → String) (countryCoords : Table LatLon)
    (countryAliases : Table String) (fetch : String → Response ApiData) (s s' : State)
    (apiData : ApiData)
    (hok : fetch (activeCountriesUrl encodeURIComponent s) = Response.success apiData)
    (hdone : loadActiveCountries IS_MOBILE encodeURIComponent countryCoords countryAliases
      fetch s = Outcome.done s')
    (c : ActiveCountry) (hc : c ∈ apiData.countries.getD []) (k : String)
    (hk : resolveKey countryCoords countryAliases c.country = some k) :
    countryCoords.has k = true ∧
    (inheritedName k = false → k ∈ s'.markersByCountry.keys) := by
  obtain ⟨r, hr, h1, _, _, _⟩ := loadActiveCountries_success_eq IS_MOBILE
    encodeURIComponent countryCoords countryAliases fetch s s' apiData hok hdone
  rw [h1]
  exact forEachCountry_registers IS_MOBILE countryCoords countryAliases _ _ r hr c hc k hk

/-- Every circle built in a pass carries a key of the registry. -/
theorem PassInv.created_key_mem {countryCoords : Table LatLon} {base : Nat} {st : State}
    (h : PassInv countryCoords base st) (l : Layer) (hl : l ∈ st.mapLayers)
    (hb : base ≤ l.id) : l.key ∈ st.markersByCountry.keys := by
  have hc : l ∈ createdSince base st.mapLayers :=
    List.mem_filter.2 ⟨hl, by simpa using hb⟩
  cases hkind : l.kind with
  | hitTarget =>
    rw [← h.hit_keys]
    exact List.mem_map.2 ⟨l, List.mem_filter.2 ⟨hc, by simpa using hkind⟩, rfl⟩
  | visible =>
    rw [← h.value_keys, ← h.visible_eq]
    exact List.mem_map.2 ⟨l, List.mem_filter.2 ⟨hc, by simpa using hkind⟩, rfl⟩

/-! ## C1: one marker per resolved key -/

theorem filter_key_length (vs : List Layer) (k : String) :
    (vs.filter (fun l => l.key == k)).length = List.count k (vs.map Layer.key) := by
  rw [← List.countP_eq_length_filter, List.count_eq_countP, List.countP_map]
  rfl

theorem Outcome.done_state_of_isDone (o : Outcome) (h : o.isDone = true) :
    o = Outcome.done o.state := by
  cases o with
  | done s => rfl
  | threw s => cases h

/-- C1 as worded fails: with coordinates `{"": [0, 0]}` and aliases
`{"Foo": ""}` the record "Foo" has the resolved key "" of the specification
(its alias entry is a key of the coordinate table), yet the pass, which runs to
its end, registers no marker under that key and builds no circle at all: the
empty alias is falsy. -/
theorem empty_alias_gets_no_marker :
    specResolvedKey [("", { lat := 0, lon := 0 })] [("Foo", "")] "Foo" = some "" ∧
    (loadActiveCountries false id [("", { lat := 0, lon := 0 })] [("Foo", "")]
      (serving fooOnly []) pageState).isDone = true ∧
    (loadActiveCountries false id [("", { lat := 0, lon := 0 })] [("Foo", "")]
      (serving fooOnly []) pageState).state.markersByCountry.get "" = none ∧
    (loadActiveCountries false id [("", { lat := 0, lon := 0 })] [("Foo", "")]
      (serving fooOnly []) pageState).state.mapLayers = [] := by
  refine ⟨by decide, by decide, by decide, by decide⟩

/-- A key that is the name of a member of `Object.prototype` gets no marker
either: the duplicate guard `markersByCountry[key]` of line 202 reads the
inherited member of the empty registry.  With coordinates
`{"constructor": [10, 20]}` and the record "constructor" the pass runs to its
end and leaves the registry and the map empty. -/
theorem inherited_key_gets_no_marker :
    (loadActiveCountries false id [("constructor", { lat := 10, lon := 20 })] []
      (serving [{ country := "constructor", events_count := 1 }] [])
      pageState).isDone = true ∧
    (loadActiveCountries false id [("constructor", { lat := 10, lon := 20 })] []
      (serving [{ country := "constructor", events_count := 1 }] [])
      pageState).state.markersByCountry = [] ∧
    (loadActiveCountries false id [("constructor", { lat := 10, lon := 20 })] []
      (serving [{ country := "constructor", events_count := 1 }] [])
      pageState).state.mapLayers = [] := by
  refine ⟨by decide, by decide, by decide⟩

/-- A name that only an inherited member answers for makes the pass throw at the
destructuring of line 199: such a pass is not a successful one. -/
theorem inherited_name_throws :
    (loadActiveCountries false id [] []
      (serving [{ country := "toString", events_count := 1 }] [])
      pageState).isDone = false := by
  decide

/-- C1 (amended): after a successful pass (the response is a success and the
function runs to its end) from a state whose identity counter is fresh, every
record whose name resolves to a key (the name when it is a key of the
coordinate table, otherwise its non-empty alias entry when that is a key of
the coordinate table) that is not the name of a member of `Object.prototype`
has exactly one visible marker under that key: `markersByCountry` holds one
entry for the key, its value is a visible circle on the map built in this
pass, and exactly one visible circle built in this pass carries the key.  No
two visible circles built in the pass, and no two entries of
`markersByCountry`, share a key. -/
theorem loadActiveCountries_one_marker_per_key (IS_MOBILE : Bool)
    (encodeURIComponent : String → String) (countryCoords : Table LatLon)
    (countryAliases : Table String) (fetch : String → Response ApiData) (s s' : State)
    (apiData : ApiData) (hfresh : s.FreshIds)
    (hok : fetch (activeCountriesUrl encodeURIComponent s) = Response.success apiData)
    (hdone : loadActiveCountries IS_MOBILE encodeURIComponent countryCoords countryAliases
      fetch s = Outcome.done s') :
    (∀ c ∈ apiData.countries.getD [], ∀ k : String,
      ((c.country ∈ countryCoords.keys ∧ k = c.country) ∨
        (c.country ∉ countryCoords.keys ∧ countryAliases.get c.country = some k ∧
          k ≠ "" ∧ k ∈ countryCoords.keys)) →
      k ∉ objectPrototypeNames →
        (∃ m : Layer,
          s'.markersByCountry.get k = some m ∧ m ∈ s'.mapLayers ∧
          m.kind = LayerKind.visible ∧ m.key = k ∧ s.nextId ≤ m.id) ∧
        List.count k s'.markersByCountry.keys = 1 ∧
        ((visibleCircles (createdSince s.nextId s'.mapLayers)).filter
          (fun l => l.key == k)).length = 1) ∧
    ((visibleCircles (createdSince s.nextId s'.mapLayers)).map Layer.key).Nodup ∧
    s'.markersByCountry.keys.Nodup := by
  have hinv := loadActiveCountries_inv IS_MOBILE encodeURIComponent countryCoords
    countryAliases fetch s s' apiData hfresh hok hdone
  have hkeys : (visibleCircles (createdSince s.nextId s'.mapLayers)).map Layer.key =
      s'.markersByCountry.keys := by
    rw [hinv.visible_eq, hinv.value_keys]
  refine ⟨?_, ?_, hinv.nodup⟩
  · intro c hc k hk' hproto
    have hreg := loadActiveCountries_registers IS_MOBILE encodeURIComponent countryCoords
      countryAliases fetch s s' apiData hok hdone c hc
    have hk : resolveKey countryCoords countryAliases c.country = some k :=
      resolveKey_of_claimed (fun k' h' => (hreg k' h').1) hk'
    have hni : inheritedName k = false := by simp [inheritedName, hproto]
    have hmem := (hreg k hk).2 hni
    have hcount := List.count_eq_one_of_mem hinv.nodup hmem
    refine ⟨?_, hcount, ?_⟩
    · obtain ⟨m, hget, hpair⟩ := Table.get_of_mem_keys _ k hmem
      have hval : m ∈ s'.markersByCountry.values := List.mem_map.2 ⟨(k, m), hpair, rfl⟩
      have hvk := hinv.value_keys
      simp only [Table.values, Table.keys, List.map_map, List.map_inj_left] at hvk
      have hmk : m.key = k := hvk (k, m) hpair
      rw [← hinv.visible_eq] at hval
      obtain ⟨hcr, hvis⟩ := List.mem_filter.1 hval
      obtain ⟨hon, hid⟩ := List.mem_filter.1 hcr
      exact ⟨m, hget, hon, by simpa using hvis, hmk, by simpa using hid⟩
    · rw [filter_key_length, hkeys]
      exact hcount
  · rw [hkeys]
    exact hinv.nodup

theorem loadActiveCountries_one_marker_per_key_witness :
    List.count "France" (loadActiveCountries false id franceCoords []
      (serving (franceOnly ++ franceOnly) []) pageState).state.markersByCountry.keys = 1 :=
  ((loadActiveCountries_one_marker_per_key false id franceCoords []
    (serving (franceOnly ++ franceOnly) []) pageState
    (loadActiveCountries false id franceCoords []
      (serving (franceOnly ++ franceOnly) []) pageState).state
    { countries := some (franceOnly ++ franceOnly), ignored_countries := some [] }
    (by intro l hl; cases hl) rfl
    (Outcome.done_state_of_isDone _ (by decide))).1
    { country := "France", events_count := 3 } (by decide) "France"
    (Or.inl ⟨by decide, rfl⟩) (by decide)).2.1

/-! ## Banner text -/

theorem Mentions.self (n : String) : Mentions n n :=
  ⟨"", "", by simp⟩

theorem Mentions.append_right {t n : String} (h : Mentions t n) (u : String) :
    Mentions (t ++ u) n := by
  obtain ⟨pre, post, rfl⟩ := h
  exact ⟨pre, post ++ u, by simp [String.append_assoc]⟩

theorem Mentions.append_left {t n : String} (h : Mentions t n) (u : String) :
    Mentions (u ++ t) n := by
  obtain ⟨pre, post, rfl⟩ := h
  exact ⟨u ++ pre, post, by simp [String.append_assoc]⟩

theorem intercalate_go_mentions (sep : String) (xs : List String) (acc n : String)
    (h : Mentions acc n ∨ n ∈ xs) : Mentions (String.intercalate.go acc sep xs) n := by
  induction xs generalizing acc with
  | nil =>
    rcases h with h | h
    · exact h
    · cases h
  | cons x xs ih =>
    show Mentions (String.intercalate.go (acc ++ sep ++ x) sep xs) n
    apply ih
    rcases h with h | h
    · exact Or.inl ((h.append_right sep).append_right x)
    · rcases List.mem_cons.1 h with rfl | h
      · exact Or.inl ((Mentions.self n).append_left (acc ++ sep))
      · exact Or.inr h

/-- Every element of an array occurs in its `join`. -/
theorem intercalate_mentions (sep : String) (xs : List String) (n : String) (h : n ∈ xs) :
    Mentions (sep.intercalate xs) n := by
  cases xs with
  | nil => cases h
  | cons x xs =>
    show Mentions (String.intercalate.go x sep xs) n
    apply intercalate_go_mentions
    rcases List.mem_cons.1 h with rfl | h
    · exact Or.inl (Mentions.self n)
    · exact Or.inr h

theorem append_ne_empty (p j : String) (h : p ≠ "") : p ++ j ≠ "" := by
  intro e
  apply h
  have hd := congrArg String.data e
  rw [String.data_append] at hd
  have hp : p.data = [] := (List.append_eq_nil.1 hd).1
  exact String.ext hp

/-- The four outcomes of the banner update. -/
theorem updateAlert_eq (missing ignored : List String) (alert : Alert) :
    updateAlert missing ignored alert =
      if missing = [] then
        if ignored = [] then { alert with display := "none" }
        else
          { textContent := "⚠️ Pays non reconnus côté backend : " ++ ", ".intercalate ignored
            display := "block" }
      else
        if ignored = [] then
          { textContent := "⚠️ Pays non géolocalisés : " ++ ", ".intercalate missing
            display := "block" }
        else
          { textContent :=
              "⚠️ Pays non géolocalisés : " ++ ", ".intercalate missing ++ " | " ++
                ("⚠️ Pays non reconnus côté backend : " ++ ", ".intercalate ignored)
            display := "block" } := by
  have hP : ∀ j : String, "⚠️ Pays non géolocalisés : " ++ j ≠ "" := fun j =>
    append_ne_empty _ j (by decide)
  have hQ : ∀ j : String, "⚠️ Pays non reconnus côté backend : " ++ j ≠ "" := fun j =>
    append_ne_empty _ j (by decide)
  have hPQ : ∀ j g : String, "⚠️ Pays non géolocalisés : " ++ j ++ " | " ++
      ("⚠️ Pays non reconnus côté backend : " ++ g) ≠ "" := fun j g => by
    rw [String.append_assoc, String.append_assoc]
    exact hP _
  by_cases hm : missing = []
  · by_cases hi : ignored = []
    · subst hm; subst hi
      simp [updateAlert]
    · subst hm
      have hl : 0 < ignored.length := List.length_pos.2 hi
      simp [updateAlert, hi, hl, hQ]
  · have hlm : 0 < missing.length := List.length_pos.2 hm
    by_cases hi : ignored = []
    · subst hi
      simp [updateAlert, hm, hlm, hP]
    · have hl : 0 < ignored.length := List.length_pos.2 hi
      simp [updateAlert, hm, hi, hlm, hl, hP, hPQ]

/-! ## C2: unresolved countries -/

theorem mem_missingNames (countryCoords : Table LatLon) (countryAliases : Table String)
    {countries : List ActiveCountry} {c : ActiveCountry} (hc : c ∈ countries)
    (hr : resolveKey countryCoords countryAliases c.country = none) :
    c.country ∈ missingNames countryCoords countryAliases countries :=
  List.mem_map.2 ⟨c, List.mem_filter.2 ⟨hc, by simp [hr]⟩, rfl⟩

/-- C2 as worded fails on a page without the element `#dashboard-alert`: the
record "Foo" resolves to no key, the pass runs to its end, and after it there is
no banner whose text could name the record. -/
theorem no_banner_without_alert_element :
    "Foo" ∉ Table.keys ([] : Table LatLon) ∧
    Table.get ([] : Table String) "Foo" = none ∧
    (loadActiveCountries false id [] [] (serving fooOnly []) pageWithoutAlert).isDone =
      true ∧
    ¬ ∃ a : Alert,
      (loadActiveCountries false id [] [] (serving fooOnly [])
        pageWithoutAlert).state.alert = some a ∧ Mentions a.textContent "Foo" := by
  refine ⟨by decide, by decide, by decide, ?_⟩
  rintro ⟨a, ha, _⟩
  have hnone :
      (loadActiveCountries false id [] [] (serving fooOnly [])
        pageWithoutAlert).state.alert = none := by decide
  rw [hnone] at ha
  cases ha

/-- C2 (amended): after a successful pass (the response is a success and the
function runs to its end) on a page that has the banner element, from a state
whose identity counter is fresh, every record whose name is neither a key of
the coordinate table nor mapped by the alias table to a key of the coordinate
table is an element of `missing`, and the banner is shown with a text that
opens with the non-geolocated part, "⚠️ Pays non géolocalisés : " followed by
the elements of `missing` joined by ", ", which names the record; the text ends
there when `ignored` is empty and goes on with " | " and the backend part
otherwise.  The iteration of the record changes nothing but `missing`; no
circle built in the pass carries its name and `markersByCountry` has no entry
under its name. -/
theorem loadActiveCountries_unresolved_in_banner (IS_MOBILE : Bool)
    (encodeURIComponent : String → String) (countryCoords : Table LatLon)
    (countryAliases : Table String) (fetch : String → Response ApiData) (s s' : State)
    (apiData : ApiData) (alert : Alert) (hfresh : s.FreshIds)
    (halert : s.alert = some alert)
    (hok : fetch (activeCountriesUrl encodeURIComponent s) = Response.success apiData)
    (hdone : loadActiveCountries IS_MOBILE encodeURIComponent countryCoords countryAliases
      fetch s = Outcome.done s') :
    ∀ c ∈ apiData.countries.getD [], c.country ∉ countryCoords.keys →
      (∀ al, countryAliases.get c.country = some al → al ∉ countryCoords.keys) →
      c.country ∈ missingNames countryCoords countryAliases (apiData.countries.getD []) ∧
      Mentions
        (", ".intercalate
          (missingNames countryCoords countryAliases (apiData.countries.getD [])))
        c.country ∧
      (∃ a : Alert, s'.alert = some a ∧ a.display = "block" ∧
        a.textContent =
          "⚠️ Pays non géolocalisés : " ++
            ", ".intercalate
              (missingNames countryCoords countryAliases (apiData.countries.getD [])) ++
            (if apiData.ignored_countries.getD [] = [] then ""
             else " | " ++ ("⚠️ Pays non reconnus côté backend : " ++
               ", ".intercalate (apiData.ignored_countries.getD [])))) ∧
      (∀ p : State × List String,
        addCountry IS_MOBILE countryCoords countryAliases p c =
          Except.ok (p.1, p.2 ++ [c.country])) ∧
      (∀ l ∈ s'.mapLayers, s.nextId ≤ l.id → l.key ≠ c.country) ∧
      s'.markersByCountry.get c.country = none := by
  intro c hc hn ha
  have hreg := loadActiveCountries_registers IS_MOBILE encodeURIComponent countryCoords
    countryAliases fetch s s' apiData hok hdone c hc
  have hr := resolveKey_none_of_unresolved (fun k' h' => (hreg k' h').1) hn ha
  have hinv := loadActiveCountries_inv IS_MOBILE encodeURIComponent countryCoords
    countryAliases fetch s s' apiData hfresh hok hdone
  have hnotkey : c.country ∉ s'.markersByCountry.keys := fun hk =>
    hn ((Table.has_iff_mem_keys _ _).1 (hinv.keys_coords _ hk))
  have hmem := mem_missingNames countryCoords countryAliases hc hr
  refine ⟨hmem, intercalate_mentions ", " _ _ hmem, ?_, ?_, ?_, ?_⟩
  · obtain ⟨r, _, _, _, _, hal⟩ := loadActiveCountries_success_eq IS_MOBILE
      encodeURIComponent countryCoords countryAliases fetch s s' apiData hok hdone
    have hne : missingNames countryCoords countryAliases (apiData.countries.getD []) ≠ [] :=
      List.ne_nil_of_mem hmem
    rw [halert, Option.map_some', updateAlert_eq, if_neg hne] at hal
    by_cases hi : apiData.ignored_countries.getD [] = []
    · rw [if_pos hi] at hal
      exact ⟨_, hal, rfl, by simp [hi]⟩
    · rw [if_neg hi] at hal
      refine ⟨_, hal, rfl, ?_⟩
      simp [hi, String.append_assoc]
  · intro p
    simp [addCountry, hr]
  · intro l hl hid heq
    exact hnotkey (heq ▸ hinv.created_key_mem l hl hid)
  · cases hg : s'.markersByCountry.get c.country with
    | none => rfl
    | some m =>
      exfalso
      apply hnotkey
      apply (Table.get_isSome_iff_mem_keys _ _).1
      rw [hg]; rfl

theorem loadActiveCountries_unresolved_in_banner_witness :
    ∃ a : Alert,
      (loadActiveCountries false id [] [] (serving fooOnly []) pageState).state.alert =
        some a ∧
      a.display = "block" ∧
      a.textContent =
        "⚠️ Pays non géolocalisés : " ++ ", ".intercalate (missingNames [] [] fooOnly) ++
          (if ([] : List String) = [] then ""
           else " | " ++ ("⚠️ Pays non reconnus côté backend : " ++ ", ".intercalate [])) :=
  (loadActiveCountries_unresolved_in_banner false id [] [] (serving fooOnly []) pageState
    (loadActiveCountries false id [] [] (serving fooOnly []) pageState).state
    { countries := some fooOnly, ignored_countries := some [] }
    { textContent := "", display := "none" }
    (by intro l hl; cases hl) rfl rfl
    (Outcome.done_state_of_isDone _ (by decide))
    { country := "Foo", events_count := 1 } (by decide) (by decide)
    (by intro al h; cases h)).2.2.1

/-! ## C3: what a pass leaves on the map -/

/-- C3 fails on the code: `clearMarkers` removes only the circles registered in
`markersByCountry`, and the hit-target circle is never registered.  After a pass
with France active followed by a pass with no active country, both running to
their end, the registry is empty and the visible circle is gone, but the hit
target of France, built in the first pass, is still on the map. -/
theorem clearMarkers_leaves_hit_target :
    (loadActiveCountries false id franceCoords [] (serving franceOnly [])
      pageState).isDone = true ∧
    (loadActiveCountries false id franceCoords [] (serving [] [])
      afterFrancePass).isDone = true ∧
    afterEmptyPass.markersByCountry = [] ∧
    visibleCircles afterEmptyPass.mapLayers = [] ∧
    ∃ l ∈ afterEmptyPass.mapLayers,
      l.kind = LayerKind.hitTarget ∧ l.key = "France" ∧ l.id < afterFrancePass.nextId := by
  refine ⟨by decide, by decide, by decide, by decide, by decide⟩

/-! ## C8: the banner at the end of a pass -/

/-- C8: at the end of a successful pass (the response is a success and the
function runs to its end) on a page that has the banner element, with `missing`
the names the pass could not resolve and `ignored` the list `ignored_countries`
of the response: the banner is hidden (display "none") exactly when both lists
are empty; otherwise it is shown (display "block") with one text made of the
non-geolocated part, present when `missing` is not empty and naming every
element of `missing`, and the backend part, present when `ignored` is not empty
and naming every element of `ignored`, with " | " between them when both are
present. -/
theorem loadActiveCountries_banner (IS_MOBILE : Bool)
    (encodeURIComponent : String → String) (countryCoords : Table LatLon)
    (countryAliases : Table String) (fetch : String → Response ApiData) (s s' : State)
    (apiData : ApiData) (alert : Alert) (halert : s.alert = some alert)
    (hok : fetch (activeCountriesUrl encodeURIComponent s) = Response.success apiData)
    (hdone : loadActiveCountries IS_MOBILE encodeURIComponent countryCoords countryAliases
      fetch s = Outcome.done s') :
    ∃ a : Alert,
      s'.alert = some a ∧
      (a.display = "none" ↔
        missingNames countryCoords countryAliases (apiData.countries.getD []) = [] ∧
        apiData.ignored_countries.getD [] = []) ∧
      (¬ (missingNames countryCoords countryAliases (apiData.countries.getD []) = [] ∧
          apiData.ignored_countries.getD [] = []) →
        a.display = "block" ∧
        ∃ m g : String,
          (∀ n ∈ missingNames countryCoords countryAliases (apiData.countries.getD []),
            Mentions m n) ∧
          (∀ n ∈ apiData.ignored_countries.getD [], Mentions g n) ∧
          a.textContent =
            (if missingNames countryCoords countryAliases (apiData.countries.getD []) = []
              then "" else "⚠️ Pays non géolocalisés : " ++ m) ++
            (if missingNames countryCoords countryAliases (apiData.countries.getD []) ≠ [] ∧
                apiData.ignored_countries.getD [] ≠ []
              then " | " else "") ++
            (if apiData.ignored_countries.getD [] = []
              then "" else "⚠️ Pays non reconnus côté backend : " ++ g)) := by
  obtain ⟨r, _, _, _, _, hal⟩ := loadActiveCountries_success_eq IS_MOBILE
    encodeURIComponent countryCoords countryAliases fetch s s' apiData hok hdone
  rw [halert, Option.map_some', updateAlert_eq] at hal
  refine ⟨_, hal, ?_, ?_⟩
  · by_cases hm : missingNames countryCoords countryAliases (apiData.countries.getD []) = []
    · by_cases hi : apiData.ignored_countries.getD [] = []
      · simp [hm, hi]
      · simp [hm, hi]
    · by_cases hi : apiData.ignored_countries.getD [] = []
      · simp [hm, hi]
      · simp [hm, hi]
  · intro hne
    refine ⟨?_, ", ".intercalate
        (missingNames countryCoords countryAliases (apiData.countries.getD [])),
      ", ".intercalate (apiData.ignored_countries.getD []),
      fun n hn => intercalate_mentions _ _ n hn,
      fun n hn => intercalate_mentions _ _ n hn, ?_⟩
    · by_cases hm : missingNames countryCoords countryAliases (apiData.countries.getD []) = []
      · have hi : apiData.ignored_countries.getD [] ≠ [] := fun hi => hne ⟨hm, hi⟩
        simp [hm, hi]
      · by_cases hi : apiData.ignored_countries.getD [] = []
        · simp [hm, hi]
        · simp [hm, hi]
    · by_cases hm : missingNames countryCoords countryAliases (apiData.countries.getD []) = []
      · have hi : apiData.ignored_countries.getD [] ≠ [] := fun hi => hne ⟨hm, hi⟩
        simp [hm, hi]
      · by_cases hi : apiData.ignored_countries.getD [] = []
        · simp [hm, hi]
        · simp [hm, hi, String.append_assoc]

theorem loadActiveCountries_banner_witness :
    ∃ a : Alert,
      (loadActiveCountries false id franceCoords [] (serving franceOnly [])
        pageState).state.alert = some a ∧ a.display = "none" :=
  match loadActiveCountries_banner false id franceCoords [] (serving franceOnly []) pageState
    (loadActiveCountries false id franceCoords [] (serving franceOnly []) pageState).state
    { countries := some franceOnly, ignored_countries := some [] }
    { textContent := "", display := "none" } rfl rfl
    (Outcome.done_state_of_isDone _ (by decide)) with
  | ⟨a, h1, h2, _⟩ => ⟨a, h1, h2.2 ⟨by decide, rfl⟩⟩

/-! ## C9: a failed request -/

/-- C9: when the response to the active-countries request is not a success,
`loadActiveCountries` ends without a throw and leaves the marker registry, the
overlays on the map, the identity counter and the banner (text and visibility)
exactly as they were. -/
theorem loadActiveCountries_failure_unchanged (IS_MOBILE : Bool)
    (encodeURIComponent : String → String) (countryCoords : Table LatLon)
    (countryAliases : Table String) (fetch : String → Response ApiData) (s : State)
    (status : Nat)
    (hfail : fetch (activeCountriesUrl encodeURIComponent s) = Response.failure status) :
    (loadActiveCountries IS_MOBILE encodeURIComponent countryCoords countryAliases
      fetch s).isDone = true ∧
    (loadActiveCountries IS_MOBILE encodeURIComponent countryCoords countryAliases
      fetch s).state.markersByCountry = s.markersByCountry ∧
    (loadActiveCountries IS_MOBILE encodeURIComponent countryCoords countryAliases
      fetch s).state.mapLayers = s.mapLayers ∧
    (loadActiveCountries IS_MOBILE encodeURIComponent countryCoords countryAliases
      fetch s).state.nextId = s.nextId ∧
    (loadActiveCountries IS_MOBILE encodeURIComponent countryCoords countryAliases
      fetch s).state.alert = s.alert := by
  unfold loadActiveCountries
  rw [hfail]
  exact ⟨rfl, rfl, rfl, rfl, rfl⟩

theorem loadActiveCountries_failure_unchanged_witness :
    (loadActiveCountries false id franceCoords [] (fun _ => Response.failure 503)
      afterFrancePass).state.mapLayers = afterFrancePass.mapLayers :=
  (loadActiveCountries_failure_unchanged false id franceCoords []
    (fun _ => Response.failure 503) afterFrancePass 503 rfl).2.2.1

/-! ## C10: rendering an empty zone list -/

/-- C10: for a `null` data object, an absent zone list or a zone list of length
zero, `renderEvents` sets the content of `#events` to the text
"Aucun événement.", so that it holds no zone section, and gives no zone header a
listener. -/
theorem renderEvents_empty (data : Option EventsData) (s : State)
    (h : data = none ∨ (∃ d, data = some d ∧ d.zones = none) ∨
      (∃ d, data = some d ∧ d.zones = some [])) :
    (renderEvents data s).events = EventsContent.text "Aucun événement." ∧
    (renderEvents data s).events.blocks = [] ∧
    (renderEvents data s).zoneListeners = s.zoneListeners := by
  rcases h with rfl | ⟨d, rfl, hz⟩ | ⟨d, rfl, hz⟩
  · exact ⟨rfl, rfl, rfl⟩
  · simp [renderEvents, hz, EventsContent.blocks]
  · simp [renderEvents, hz, EventsContent.blocks]

theorem renderEvents_empty_witness :
    (renderEvents (some { zones := some [] }) pageState).events =
      EventsContent.text "Aucun événement." ∧
    (renderEvents (some { zones := some [] }) pageState).zoneListeners = [] :=
  match renderEvents_empty (some { zones := some [] }) pageState
    (Or.inr (Or.inr ⟨_, rfl, rfl⟩)) with
  | ⟨h1, _, h3⟩ => ⟨h1, h3⟩

/-- A zone list that is not empty gives one section and one header listener
per zone. -/
theorem renderEvents_sections (d : EventsData) (zones : List Zone) (s : State)
    (hz : d.zones = some zones) (hne : zones ≠ []) :
    (renderEvents (some d) s).events.blocks.length = zones.length ∧
    (renderEvents (some d) s).zoneListeners = s.zoneListeners ++ List.range zones.length := by
  have hl : zones.length ≠ 0 := fun h => hne (List.length_eq_zero.1 h)
  have hr : List.map (fun iz : Nat × Zone => iz.1) zones.enum = List.range zones.length := by
    simp [List.enum_map_fst zones]
  simp [renderEvents, hz, hl, EventsContent.blocks, hr]

/-! ## C6: the two date selectors -/

theorem loadEventsBegin_dates (encodeURIComponent : String → String) (country : String)
    (s : State) :
    (loadEventsBegin encodeURIComponent country s).1.currentGlobalDate = s.currentGlobalDate ∧
    (loadEventsBegin encodeURIComponent country s).1.currentPanelDate = s.currentPanelDate ∧
    (loadEventsBegin encodeURIComponent country s).1.selectGlobal = s.selectGlobal ∧
    (loadEventsBegin encodeURIComponent country s).1.selectPanel = s.selectPanel := by
  unfold loadEventsBegin
  split <;> exact ⟨rfl, rfl, rfl, rfl⟩

theorem reloadAfterDateChange_dates (encodeURIComponent : String → String) (s : State) :
    (reloadAfterDateChange encodeURIComponent s).currentGlobalDate = s.currentGlobalDate ∧
    (reloadAfterDateChange encodeURIComponent s).currentPanelDate = s.currentPanelDate ∧
    (reloadAfterDateChange encodeURIComponent s).selectGlobal = s.selectGlobal ∧
    (reloadAfterDateChange encodeURIComponent s).selectPanel = s.selectPanel := by
  unfold reloadAfterDateChange
  simp only
  split
  · exact loadEventsBegin_dates encodeURIComponent _ _
  · exact ⟨rfl, rfl, rfl, rfl⟩

/-- Both date variables take the value picked, whatever the options are; the
selector picked in shows it, and the other selector shows it when it has an
option with that value. -/
theorem select_syncs_common_option (encodeURIComponent : String → String) (v : String)
    (s : State) :
    ((selectInGlobal encodeURIComponent v s).currentGlobalDate = some v ∧
      (selectInGlobal encodeURIComponent v s).currentPanelDate = some v ∧
      (selectInGlobal encodeURIComponent v s).selectGlobal.value = v ∧
      (v ∈ s.selectPanel.options →
        (selectInGlobal encodeURIComponent v s).selectPanel.value = v)) ∧
    ((selectInPanel encodeURIComponent v s).currentGlobalDate = some v ∧
      (selectInPanel encodeURIComponent v s).currentPanelDate = some v ∧
      (selectInPanel encodeURIComponent v s).selectPanel.value = v ∧
      (v ∈ s.selectGlobal.options →
        (selectInPanel encodeURIComponent v s).selectGlobal.value = v)) := by
  constructor
  · obtain ⟨h1, h2, h3, h4⟩ := reloadAfterDateChange_dates encodeURIComponent
      { s with
        selectGlobal := s.selectGlobal.pick v
        currentGlobalDate := some v
        currentPanelDate := some v
        selectPanel := s.selectPanel.setValue v }
    refine ⟨h1, h2, ?_, fun hv => ?_⟩
    · exact (congrArg Select.value h3).trans rfl
    · refine (congrArg Select.value h4).trans ?_
      simp [Select.setValue, hv]
  · obtain ⟨h1, h2, h3, h4⟩ := reloadAfterDateChange_dates encodeURIComponent
      { s with
        selectPanel := s.selectPanel.pick v
        currentPanelDate := some v
        currentGlobalDate := some v
        selectGlobal := s.selectGlobal.setValue v }
    refine ⟨h1, h2, ?_, fun hv => ?_⟩
    · exact (congrArg Select.value h4).trans rfl
    · refine (congrArg Select.value h3).trans ?_
      simp [Select.setValue, hv]

/-- C6 fails on the code: `loadLatestEvents` adds the date of its response to
`#timeline-panel` only.  With timeline dates 2024-05-01 and 2024-05-02 and a
latest-events response dated 2024-06-15, the panel selector offers 2024-06-15
and the global selector does not.  The user picks 2024-05-01 in the panel, which
both selectors then show, and next picks 2024-06-15 in the panel: once the
change handler has run, both date variables are 2024-06-15 and the panel shows
it, but the global selector shows the empty string. -/
theorem panel_pick_leaves_global_blank :
    "2024-05-01" ∈ afterLatestEvents.selectPanel.options ∧
    "2024-06-15" ∈ afterFirstPick.selectPanel.options ∧
    "2024-06-15" ∉ afterFirstPick.selectGlobal.options ∧
    afterFirstPick.selectPanel.value = "2024-05-01" ∧
    afterFirstPick.selectGlobal.value = "2024-05-01" ∧
    afterPanelPick.currentGlobalDate = some "2024-06-15" ∧
    afterPanelPick.currentPanelDate = some "2024-06-15" ∧
    afterPanelPick.selectPanel.value = "2024-06-15" ∧
    afterPanelPick.selectGlobal.value = "" := by
  refine ⟨by decide, by decide, by decide, by decide, by decide, by decide, by decide,
    by decide, by decide⟩

/-! ## C7: the request of `loadEvents` -/

theorem renderEvents_fetched (data : Option EventsData) (s : State) :
    (renderEvents data s).fetched = s.fetched := by
  unfold renderEvents
  split
  · rfl
  · split <;> rfl

theorem loadEventsResume_fetched (resp : Response (Option EventsData)) (s : State) :
    (loadEventsResume resp s).fetched = s.fetched := by
  cases resp with
  | failure st => rfl
  | success data => exact renderEvents_fetched data s

/-- With a panel date `d` that is a non-empty string, `loadEvents(c)` issues
exactly one request: to `/api/countries/{encodeURIComponent(c)}/all-events` when
`d` is "ALL", and otherwise to `/api/countries/{encodeURIComponent(c)}/events`
followed by `?date=` and the characters of `d` as they are. -/
theorem loadEvents_request_text (encodeURIComponent : String → String) (country d : String)
    (fetch : String → Response (Option EventsData)) (s : State)
    (hd : s.currentPanelDate = some d) (hne : d ≠ "") :
    (d = "ALL" →
      (loadEvents encodeURIComponent country fetch s).fetched =
        s.fetched ++ ["/api/countries/" ++ encodeURIComponent country ++ "/all-events"]) ∧
    (d ≠ "ALL" →
      (loadEvents encodeURIComponent country fetch s).fetched =
        s.fetched ++
          ["/api/countries/" ++ encodeURIComponent country ++ "/events?date=" ++ d]) := by
  have hb : loadEventsBegin encodeURIComponent country s =
      ({ s with
          events := EventsContent.text "Chargement..."
          fetched := s.fetched ++ [eventsUrl encodeURIComponent country d] },
        some (eventsUrl encodeURIComponent country d)) := by
    simp [loadEventsBegin, hd, truthyStr, hne]
  have hf : (loadEvents encodeURIComponent country fetch s).fetched =
      s.fetched ++ [eventsUrl encodeURIComponent country d] := by
    unfold loadEvents
    rw [hb]
    exact loadEventsResume_fetched _ _
  constructor
  · intro hall
    rw [hf, eventsUrl, if_pos hall]
  · intro hdate
    rw [hf, eventsUrl, if_neg hdate]

/-- C7 fails on the code: `loadEvents` writes the panel date into the URL as it
is, where `loadActiveCountries` passes the date through `encodeURIComponent`.
With the panel date "2024-05-01&x=1" the one request issued is for
`/api/countries/France/events?date=2024-05-01&x=1`, whose query parameter
`date` carries "2024-05-01", not the panel date. -/
theorem loadEvents_raw_date_splits_query :
    (loadEvents id "France" (fun _ => Response.success none)
      { pageState with currentPanelDate := some "2024-05-01&x=1" }).fetched =
      ["/api/countries/France/events?date=2024-05-01&x=1"] ∧
    queryParam "/api/countries/France/events?date=2024-05-01&x=1" "date" =
      some "2024-05-01" ∧
    queryParam "/api/countries/France/events?date=2024-05-01&x=1" "date" ≠
      some "2024-05-01&x=1" := by
  refine ⟨by decide, by decide, by decide⟩

end Dashboard
